import Mathlib

/-!
# lxc `conf.h`: automount bitmask, hook enumeration, id maps, cgroup settings

A shallow embedding of the declarations of `src/lxc/conf.h` and of the
operations it declares, with the properties the specification states about
them.

* The enumerators of the anonymous `LXC_AUTO_*` enum and of `enum lxchooks`
  are embedded from the header. A C enumerator has type `int`; all the values
  are below `2^9`, so they are natural numbers here and `&`, `|` are the
  bitwise operations of `Nat`. The complement `~x` of an `int` only ever
  occurs as `a & ~x` with `a` non-negative, which is `a` with the bits of `x`
  cleared (`and_not`).
* `struct id_map` and `struct lxc_cgroup` are embedded from the header.
* The header only declares `mapped_hostid` and `sort_cgroup_settings`, and the
  automount resolution has no declaration of its own: their bodies are
  modelled from the specification, and each such definition says so.
-/

namespace Lxc

/-! ## The automount bitmask (`conf.h`, anonymous enum) -/

/-- `/proc` read-write. -/
def LXC_AUTO_PROC_RW : Nat := 0x001
/-- `/proc/sys` and `/proc/sysrq-trigger` read-only. -/
def LXC_AUTO_PROC_MIXED : Nat := 0x002
def LXC_AUTO_PROC_MASK : Nat := 0x003

/-- `/sys`. -/
def LXC_AUTO_SYS_RW : Nat := 0x004
/-- `/sys` read-only. -/
def LXC_AUTO_SYS_RO : Nat := 0x008
/-- `/sys` read-only and `/sys/class/net` read-write. -/
def LXC_AUTO_SYS_MIXED : Nat := 0x00C
def LXC_AUTO_SYS_MASK : Nat := 0x00C

/-- `/sys/fs/cgroup` (partial mount, read-only). -/
def LXC_AUTO_CGROUP_RO : Nat := 0x010
/-- `/sys/fs/cgroup` (partial mount, read-write). -/
def LXC_AUTO_CGROUP_RW : Nat := 0x020
/-- `/sys/fs/cgroup` (partial mount, paths r/o, cgroup r/w). -/
def LXC_AUTO_CGROUP_MIXED : Nat := 0x030
/-- `/sys/fs/cgroup` (full mount, read-only). -/
def LXC_AUTO_CGROUP_FULL_RO : Nat := 0x040
/-- `/sys/fs/cgroup` (full mount, read-write). -/
def LXC_AUTO_CGROUP_FULL_RW : Nat := 0x050
/-- `/sys/fs/cgroup` (full mount, parent r/o, own r/w). -/
def LXC_AUTO_CGROUP_FULL_MIXED : Nat := 0x060
/-- `/sys/fs/cgroup` (partial mount, r/w or mixed, depending on caps). -/
def LXC_AUTO_CGROUP_NOSPEC : Nat := 0x0B0
/-- `/sys/fs/cgroup` (full mount, r/w or mixed, depending on caps). -/
def LXC_AUTO_CGROUP_FULL_NOSPEC : Nat := 0x0E0
/-- Mount cgroups even when cgroup namespaces are supported. -/
def LXC_AUTO_CGROUP_FORCE : Nat := 0x100
/-- The header documents this enumerator as "all known cgroup options, doe not
contain LXC_AUTO_CGROUP_FORCE"; its value is `0x1F0`. -/
def LXC_AUTO_CGROUP_MASK : Nat := 0x1F0
/-- All known settings. -/
def LXC_AUTO_ALL_MASK : Nat := 0x1FF

/-- The C expression `a & ~x` on `int`, for a non-negative `a`: the two's
complement `~x` has every bit of the 32-bit word set but those of `x`. -/
def and_not (a x : Nat) : Nat := a &&& ((2 ^ 32 - 1) ^^^ x)

/-- Modelled from the spec: the cgroup mask of the earlier versions of the
header, which the comment above `LXC_AUTO_CGROUP_NOSPEC` calls "the previous
mask" and the sources do not keep: the bits of the six concrete cgroup
variants. -/
def previous_cgroup_mask : Nat :=
  LXC_AUTO_CGROUP_RO ||| LXC_AUTO_CGROUP_RW ||| LXC_AUTO_CGROUP_MIXED |||
  LXC_AUTO_CGROUP_FULL_RO ||| LXC_AUTO_CGROUP_FULL_RW ||| LXC_AUTO_CGROUP_FULL_MIXED

/-- The named values of the proc field. -/
def proc_values : List Nat := [LXC_AUTO_PROC_RW, LXC_AUTO_PROC_MIXED]

/-- The named values of the sys field. -/
def sys_values : List Nat := [LXC_AUTO_SYS_RW, LXC_AUTO_SYS_RO, LXC_AUTO_SYS_MIXED]

/-- The six concrete variants of the cgroup field. -/
def cgroup_concrete_values : List Nat :=
  [LXC_AUTO_CGROUP_RO, LXC_AUTO_CGROUP_RW, LXC_AUTO_CGROUP_MIXED,
   LXC_AUTO_CGROUP_FULL_RO, LXC_AUTO_CGROUP_FULL_RW, LXC_AUTO_CGROUP_FULL_MIXED]

/-- The variants of the cgroup field: the six concrete ones and the two
no-spec ones. -/
def cgroup_variant_values : List Nat :=
  cgroup_concrete_values ++ [LXC_AUTO_CGROUP_NOSPEC, LXC_AUTO_CGROUP_FULL_NOSPEC]

/-- The named values of the cgroup field, the force flag included. -/
def cgroup_values : List Nat := cgroup_variant_values ++ [LXC_AUTO_CGROUP_FORCE]

/-- The automount value of a choice: proc value, sys value, cgroup variant and
force flag, or-ed together. -/
def auto_mounts_of (p s c f : Nat) : Nat := p ||| s ||| c ||| f

/-- The choices for the proc field: off, or one of its named values. -/
def proc_choices : List Nat := 0 :: proc_values

/-- The choices for the sys field: off, or one of its named values. -/
def sys_choices : List Nat := 0 :: sys_values

/-- The choices for the cgroup variant: off, or one of the eight variants. -/
def cgroup_choices : List Nat := 0 :: cgroup_variant_values

/-- The choices for the force flag: clear or set. -/
def force_choices : List Nat := [0, LXC_AUTO_CGROUP_FORCE]

/-! ## The hook enumeration (`enum lxchooks`) -/

/-- The enumerators of `enum lxchooks`, in the order of the header. -/
inductive lxchooks where
  | LXCHOOK_PRESTART
  | LXCHOOK_PREMOUNT
  | LXCHOOK_MOUNT
  | LXCHOOK_AUTODEV
  | LXCHOOK_START
  | LXCHOOK_STOP
  | LXCHOOK_POSTSTOP
  | LXCHOOK_CLONE
  | LXCHOOK_DESTROY
  | NUM_LXC_HOOKS
  deriving DecidableEq, Repr

/-- The value of an enumerator. None of them has an initialiser, so C gives the
first one 0 and each next one the previous value plus 1: the position in the
declaration. -/
def lxchooks.val (h : lxchooks) : Nat := h.toCtorIdx

/-- The lifecycle moments: every enumerator but the count `NUM_LXC_HOOKS`. -/
def lxchook_moments : List lxchooks :=
  [.LXCHOOK_PRESTART, .LXCHOOK_PREMOUNT, .LXCHOOK_MOUNT, .LXCHOOK_AUTODEV,
   .LXCHOOK_START, .LXCHOOK_STOP, .LXCHOOK_POSTSTOP, .LXCHOOK_CLONE, .LXCHOOK_DESTROY]

/-- The length of `struct lxc_list hooks[NUM_LXC_HOOKS]` in `struct lxc_conf`. -/
def lxc_conf_hooks_length : Nat := lxchooks.NUM_LXC_HOOKS.val

/-- The length of `extern char *lxchook_names[NUM_LXC_HOOKS]`. -/
def lxchook_names_length : Nat := lxchooks.NUM_LXC_HOOKS.val

/-! ## Identity maps (`enum idtype`, `struct id_map`) -/

inductive idtype where
  | ID_TYPE_UID
  | ID_TYPE_GID
  deriving DecidableEq, Repr

/-- An id map entry: `struct id_map`. The fields are `unsigned long` in C; the
specification gives ids no width, and they are natural numbers here. -/
structure id_map where
  idtype : Lxc.idtype
  hostid : Nat
  nsid : Nat
  range : Nat
  deriving DecidableEq, Repr

/-- The failures the specification names for the operations modelled here. -/
inductive ConfError where
  | NotMapped
  | MountDecodeConflict
  deriving DecidableEq, Repr

/-- The entry is of kind `t` and its namespace range `nsid .. nsid + range - 1`
contains `id`. -/
def id_map.covers (m : id_map) (t : Lxc.idtype) (id : Nat) : Bool :=
  decide (m.idtype = t) && decide (m.nsid ≤ id) && decide (id < m.nsid + m.range)

/-- The host id an entry gives a namespace id of its range: ids are mapped
consecutively, `nsid` to `hostid`. -/
def id_map.host_of (m : id_map) (id : Nat) : Nat := m.hostid + (id - m.nsid)

/-- Modelled from the spec: the body of `mapped_hostid`, which the header only
declares (`idmap` is `conf->id_map`). A linear scan of the entries, the first
match wins; the lookup fails as not mapped when no entry of the kind has a
namespace range that covers the id. -/
def mapped_hostid (id : Nat) (idmap : List id_map) (t : Lxc.idtype) : Except ConfError Nat :=
  match idmap with
  | [] => .error .NotMapped
  | m :: rest =>
    if m.idtype = t ∧ m.nsid ≤ id ∧ id < m.nsid + m.range then
      .ok (m.hostid + (id - m.nsid))
    else
      mapped_hostid id rest t

/-- The reference definition of the lookup, in the words of the specification:
`hostid + (n - nsid)` for the first entry of the kind that covers `n`, not
mapped when there is none. -/
def mapped_hostid_ref (id : Nat) (idmap : List id_map) (t : Lxc.idtype) : Except ConfError Nat :=
  match idmap.find? (fun m => m.covers t id) with
  | some m => .ok (m.host_of id)
  | none => .error .NotMapped

/-- A line of the textual form of an id map: the kind character and the three
numbers, in the order they are written. -/
structure id_map_line where
  kind : Char
  first : Nat
  second : Nat
  third : Nat
  deriving DecidableEq, Repr

/-- The kind of a line: `u` or `g`. -/
def idtype_of_kind (c : Char) : Option Lxc.idtype :=
  if c = 'u' then some .ID_TYPE_UID
  else if c = 'g' then some .ID_TYPE_GID
  else none

/-- Modelled from the spec: a line read with the fields in the order the
specification gives, `kind host_id namespace_id range_length`. -/
def id_map_of_line_spec_order (l : id_map_line) : Option id_map :=
  (idtype_of_kind l.kind).map fun t =>
    { idtype := t, hostid := l.first, nsid := l.second, range := l.third }

/-- A line read with the fields in the order the header documents the form
with: in `u 0 9800 100` the first number is the id in the container, the second
the id on the host, the third the number of ids. -/
def id_map_of_line (l : id_map_line) : Option id_map :=
  (idtype_of_kind l.kind).map fun t =>
    { idtype := t, nsid := l.first, hostid := l.second, range := l.third }

/-- The two example lines of the header for uids, `u 0 9800 100` and
`u 1000 9900 100`. -/
def header_example_lines : List id_map_line :=
  [⟨'u', 0, 9800, 100⟩, ⟨'u', 1000, 9900, 100⟩]

/-- The entries a reading of the lines gives, in the order of the lines. -/
def id_maps_of_lines (read : id_map_line → Option id_map) (ls : List id_map_line) :
    List id_map :=
  ls.filterMap read

/-- The entries of the header's example: the example lines, read in the order
the header documents. -/
def header_example_id_map : List id_map :=
  id_maps_of_lines id_map_of_line header_example_lines

/-- The example lines of the header, read in the order the specification
gives. -/
def header_example_id_map_spec_order : List id_map :=
  id_maps_of_lines id_map_of_line_spec_order header_example_lines

/-! ## Automount resolution -/

/-- The force flag of an automount value is set. -/
def force_set (spec : Nat) : Bool :=
  decide (spec &&& LXC_AUTO_CGROUP_FORCE = LXC_AUTO_CGROUP_FORCE)

/-- Modelled from the spec: the meaning of the force flag. The cgroup mount
step of a resolved sequence is performed unless the runtime reports that cgroup
namespaces already give the isolation and the flag is clear. -/
def cgroup_step_performed (spec : Nat) (cgroup_namespaces : Bool) : Bool :=
  !cgroup_namespaces || force_set spec

/-! ## Cgroup settings (`struct lxc_cgroup`) -/

/-- A cgroup setting: `struct lxc_cgroup`, the targeted subsystem and the value
to set. -/
structure lxc_cgroup where
  subsystem : String
  value : String
  deriving DecidableEq, Repr

/-- Modelled from the spec: the insertion step of the stable sort. The setting
goes in front of the first setting whose subsystem is not written before its
own. `rank` is the write order of the subsystems, which the specification
leaves open: a subsystem of lower rank is written first. -/
def insert_cgroup_setting {α : Type} [LinearOrder α] (rank : String → α) (x : lxc_cgroup) :
    List lxc_cgroup → List lxc_cgroup
  | [] => [x]
  | y :: ys =>
    if rank x.subsystem ≤ rank y.subsystem then x :: y :: ys
    else y :: insert_cgroup_setting rank x ys

/-- Modelled from the spec: the body of `sort_cgroup_settings`, which the header
only declares. A stable sort of the settings by the write order `rank` of their
subsystems. -/
def sort_cgroup_settings {α : Type} [LinearOrder α] (rank : String → α)
    (cgroup_settings : List lxc_cgroup) : List lxc_cgroup :=
  cgroup_settings.foldr (insert_cgroup_setting rank) []

/-- The settings are in write order: no setting comes after one of higher
rank. -/
def cgroup_settings_ordered {α : Type} [LinearOrder α] (rank : String → α)
    (l : List lxc_cgroup) : Prop :=
  l.Pairwise fun x y => rank x.subsystem ≤ rank y.subsystem

/-- The settings of a list that the write order does not distinguish from a
subsystem of rank `a`, in the order of the list. -/
def settings_of_rank {α : Type} [LinearOrder α] (rank : String → α) (a : α)
    (l : List lxc_cgroup) : List lxc_cgroup :=
  l.filter fun e => decide (rank e.subsystem = a)

/-- An example of a write order: `memory.memsw.limit_in_bytes` is written after
every other subsystem. -/
def memsw_last (subsystem : String) : Nat :=
  if subsystem = "memory.memsw.limit_in_bytes" then 1 else 0

/-! ## Theorems -/

/-- C1: the proc, sys and cgroup masks are pairwise disjoint, their union is
`LXC_AUTO_ALL_MASK = 0x1FF`, and every named value of a field has all its bits
inside the mask of its own field and inside `LXC_AUTO_ALL_MASK`. -/
theorem automount_fields_disjoint_and_cover :
    LXC_AUTO_PROC_MASK &&& LXC_AUTO_SYS_MASK = 0 ∧
    LXC_AUTO_PROC_MASK &&& LXC_AUTO_CGROUP_MASK = 0 ∧
    LXC_AUTO_SYS_MASK &&& LXC_AUTO_CGROUP_MASK = 0 ∧
    LXC_AUTO_PROC_MASK ||| LXC_AUTO_SYS_MASK ||| LXC_AUTO_CGROUP_MASK = LXC_AUTO_ALL_MASK ∧
    LXC_AUTO_ALL_MASK = 0x1FF ∧
    (∀ x ∈ proc_values, x &&& LXC_AUTO_PROC_MASK = x ∧ x &&& LXC_AUTO_ALL_MASK = x) ∧
    (∀ x ∈ sys_values, x &&& LXC_AUTO_SYS_MASK = x ∧ x &&& LXC_AUTO_ALL_MASK = x) ∧
    (∀ x ∈ cgroup_values, x &&& LXC_AUTO_CGROUP_MASK = x ∧ x &&& LXC_AUTO_ALL_MASK = x) := by
  decide

/-- C2: under the previous cgroup mask `0x070`, the union of the six concrete
cgroup variants, `LXC_AUTO_CGROUP_NOSPEC` reads as `LXC_AUTO_CGROUP_MIXED`,
`LXC_AUTO_CGROUP_FULL_NOSPEC` reads as `LXC_AUTO_CGROUP_FULL_MIXED`, and each of
the six concrete variants reads as itself. -/
theorem nospec_binary_compatible :
    previous_cgroup_mask = 0x070 ∧
    LXC_AUTO_CGROUP_NOSPEC &&& previous_cgroup_mask = LXC_AUTO_CGROUP_MIXED ∧
    LXC_AUTO_CGROUP_FULL_NOSPEC &&& previous_cgroup_mask = LXC_AUTO_CGROUP_FULL_MIXED ∧
    (∀ x ∈ cgroup_concrete_values, x &&& previous_cgroup_mask = x) := by
  decide

/-- C3, the code at the failing input: `LXC_AUTO_CGROUP_MASK` contains the bit
`LXC_AUTO_CGROUP_FORCE`, so masking `LXC_AUTO_CGROUP_RO | LXC_AUTO_CGROUP_FORCE`
gives `0x110` and masking `LXC_AUTO_CGROUP_RO` gives `0x010`. -/
theorem cgroup_mask_contains_force :
    LXC_AUTO_CGROUP_MASK &&& LXC_AUTO_CGROUP_FORCE = LXC_AUTO_CGROUP_FORCE ∧
    LXC_AUTO_CGROUP_MASK &&& LXC_AUTO_CGROUP_FORCE ≠ 0 ∧
    (LXC_AUTO_CGROUP_RO ||| LXC_AUTO_CGROUP_FORCE) &&& LXC_AUTO_CGROUP_MASK = 0x110 ∧
    LXC_AUTO_CGROUP_RO &&& LXC_AUTO_CGROUP_MASK = 0x010 := by
  decide

/-- C4: the hook enumeration has exactly the 9 lifecycle moments prestart,
premount, mount, autodev, start, stop, poststop, clone, destroy, with the values
0 .. 8 in that order and pairwise distinct; `NUM_LXC_HOOKS` is 9, and every
moment is an in-bounds index of `conf.hooks` and of `lxchook_names`. -/
theorem lxchooks_nine_moments :
    lxchook_moments.map lxchooks.val = [0, 1, 2, 3, 4, 5, 6, 7, 8] ∧
    lxchook_moments.length = 9 ∧
    lxchook_moments.Nodup ∧
    (∀ h : lxchooks, h ∈ lxchook_moments ↔ h ≠ lxchooks.NUM_LXC_HOOKS) ∧
    (∀ a b : lxchooks, a.val = b.val → a = b) ∧
    lxchooks.NUM_LXC_HOOKS.val = 9 ∧
    (∀ h ∈ lxchook_moments,
      h.val < lxc_conf_hooks_length ∧ h.val < lxchook_names_length) := by
  refine ⟨by decide, by decide, by decide, ?_, ?_, by decide, by decide⟩
  · intro h; cases h <;> decide
  · intro a b; cases a <;> cases b <;> decide

/-- Decoding by masking gives back each component of a choice. -/
theorem auto_mounts_of_decode :
    ∀ p ∈ proc_choices, ∀ s ∈ sys_choices, ∀ c ∈ cgroup_choices, ∀ f ∈ force_choices,
      auto_mounts_of p s c f &&& LXC_AUTO_PROC_MASK = p ∧
      auto_mounts_of p s c f &&& LXC_AUTO_SYS_MASK = s ∧
      and_not (auto_mounts_of p s c f &&& LXC_AUTO_CGROUP_MASK) LXC_AUTO_CGROUP_FORCE = c ∧
      auto_mounts_of p s c f &&& LXC_AUTO_CGROUP_FORCE = f := by
  decide

/-- C10: for every choice `(p, s, c, f)` of proc value, sys value, cgroup variant
and force flag, the bitmask `v = p | s | c | f` satisfies
`v & LXC_AUTO_PROC_MASK = p`, `v & LXC_AUTO_SYS_MASK = s`,
`v & LXC_AUTO_CGROUP_MASK & ~LXC_AUTO_CGROUP_FORCE = c` and
`v & LXC_AUTO_CGROUP_FORCE = f`; two choices with the same bitmask are the same
choice. -/
theorem auto_mounts_encoding_injective :
    (∀ p ∈ proc_choices, ∀ s ∈ sys_choices, ∀ c ∈ cgroup_choices, ∀ f ∈ force_choices,
      auto_mounts_of p s c f &&& LXC_AUTO_PROC_MASK = p ∧
      auto_mounts_of p s c f &&& LXC_AUTO_SYS_MASK = s ∧
      and_not (auto_mounts_of p s c f &&& LXC_AUTO_CGROUP_MASK) LXC_AUTO_CGROUP_FORCE = c ∧
      auto_mounts_of p s c f &&& LXC_AUTO_CGROUP_FORCE = f) ∧
    (∀ p ∈ proc_choices, ∀ s ∈ sys_choices, ∀ c ∈ cgroup_choices, ∀ f ∈ force_choices,
      ∀ p2 ∈ proc_choices, ∀ s2 ∈ sys_choices, ∀ c2 ∈ cgroup_choices, ∀ f2 ∈ force_choices,
      auto_mounts_of p s c f = auto_mounts_of p2 s2 c2 f2 →
        p = p2 ∧ s = s2 ∧ c = c2 ∧ f = f2) := by
  refine ⟨auto_mounts_of_decode, ?_⟩
  intro p hp s hs c hc f hf p2 hp2 s2 hs2 c2 hc2 f2 hf2 h
  obtain ⟨a1, a2, a3, a4⟩ := auto_mounts_of_decode p hp s hs c hc f hf
  obtain ⟨b1, b2, b3, b4⟩ := auto_mounts_of_decode p2 hp2 s2 hs2 c2 hc2 f2 hf2
  rw [h] at a1 a2 a3 a4
  exact ⟨a1.symm.trans b1, a2.symm.trans b2, a3.symm.trans b3, a4.symm.trans b4⟩

/-! ### Identity maps -/

theorem mapped_hostid_eq_ref (idmap : List id_map) (t : Lxc.idtype) (n : Nat) :
    mapped_hostid n idmap t = mapped_hostid_ref n idmap t := by
  induction idmap with
  | nil => rfl
  | cons m rest ih =>
    by_cases h : m.idtype = t ∧ m.nsid ≤ n ∧ n < m.nsid + m.range
    · have hc : m.covers t n = true := by
        simp [id_map.covers, h.1, h.2.1, h.2.2]
      simp [mapped_hostid, mapped_hostid_ref, List.find?, h, hc, id_map.host_of]
    · have hc : m.covers t n = false := by
        simp only [id_map.covers, Bool.and_eq_false_iff, decide_eq_false_iff_not]
        by_contra hn
        push_neg at hn
        exact h ⟨hn.1.1, hn.1.2, hn.2⟩
      have ih2 := ih
      simp only [mapped_hostid_ref] at ih2
      simp only [mapped_hostid, mapped_hostid_ref, List.find?, h, hc, if_false]
      exact ih2

theorem mapped_hostid_first_match (pre : List id_map) (m : id_map) (post : List id_map)
    (t : Lxc.idtype) (n : Nat) (hpre : ∀ x ∈ pre, x.covers t n = false)
    (hm : m.covers t n = true) :
    mapped_hostid n (pre ++ m :: post) t = .ok (m.hostid + (n - m.nsid)) := by
  rw [mapped_hostid_eq_ref]
  have hf : (pre ++ m :: post).find? (fun m => m.covers t n) = some m := by
    rw [List.find?_append]
    have : pre.find? (fun m => m.covers t n) = none := by
      rw [List.find?_eq_none]
      intro x hx
      simp [hpre x hx]
    simp [this, List.find?, hm]
  simp [mapped_hostid_ref, hf, id_map.host_of]

theorem mapped_hostid_not_mapped (idmap : List id_map) (t : Lxc.idtype) (n : Nat)
    (h : ∀ x ∈ idmap, x.covers t n = false) :
    mapped_hostid n idmap t = .error .NotMapped := by
  rw [mapped_hostid_eq_ref]
  have hf : idmap.find? (fun m => m.covers t n) = none := by
    rw [List.find?_eq_none]
    intro x hx
    simp [h x hx]
  simp [mapped_hostid_ref, hf]

/-- C5: `mapped_hostid` equals its reference definition. For every id map, kind
and namespace id `n` the result is `hostid + (n - nsid)` for the first entry of
the kind with `nsid <= n < nsid + range`, and the not-mapped failure when no
entry of the kind covers `n`. For the entries `u 0 -> 9800` and
`u 1000 -> 9900`, both of range 100, uid 50 maps to 9850, uid 1050 to 9950, and
uid 500 is not mapped. -/
theorem mapped_hostid_refines_reference :
    (∀ (idmap : List id_map) (t : Lxc.idtype) (n : Nat),
      mapped_hostid n idmap t = mapped_hostid_ref n idmap t) ∧
    (∀ (pre : List id_map) (m : id_map) (post : List id_map) (t : Lxc.idtype) (n : Nat),
      (∀ x ∈ pre, ¬ (x.idtype = t ∧ x.nsid ≤ n ∧ n < x.nsid + x.range)) →
      m.idtype = t → m.nsid ≤ n → n < m.nsid + m.range →
      mapped_hostid n (pre ++ m :: post) t = .ok (m.hostid + (n - m.nsid))) ∧
    (∀ (idmap : List id_map) (t : Lxc.idtype) (n : Nat),
      (∀ x ∈ idmap, ¬ (x.idtype = t ∧ x.nsid ≤ n ∧ n < x.nsid + x.range)) →
      mapped_hostid n idmap t = .error .NotMapped) ∧
    mapped_hostid 50 [⟨.ID_TYPE_UID, 9800, 0, 100⟩, ⟨.ID_TYPE_UID, 9900, 1000, 100⟩]
      .ID_TYPE_UID = .ok 9850 ∧
    mapped_hostid 1050 [⟨.ID_TYPE_UID, 9800, 0, 100⟩, ⟨.ID_TYPE_UID, 9900, 1000, 100⟩]
      .ID_TYPE_UID = .ok 9950 ∧
    mapped_hostid 500 [⟨.ID_TYPE_UID, 9800, 0, 100⟩, ⟨.ID_TYPE_UID, 9900, 1000, 100⟩]
      .ID_TYPE_UID = .error .NotMapped := by
  have hcov : ∀ (x : id_map) (t : Lxc.idtype) (n : Nat),
      ¬ (x.idtype = t ∧ x.nsid ≤ n ∧ n < x.nsid + x.range) → x.covers t n = false := by
    intro x t n h
    simp only [id_map.covers, Bool.and_eq_false_iff, decide_eq_false_iff_not]
    by_contra hn
    push_neg at hn
    exact h ⟨hn.1.1, hn.1.2, hn.2⟩
  refine ⟨mapped_hostid_eq_ref, ?_, ?_, by rfl, by rfl, by rfl⟩
  · intro pre m post t n hpre h1 h2 h3
    apply mapped_hostid_first_match
    · intro x hx
      exact hcov x t n (hpre x hx)
    · simp [id_map.covers, h1, h2, h3]
  · intro idmap t n h
    apply mapped_hostid_not_mapped
    intro x hx
    exact hcov x t n (h x hx)

/-- C6, as stated: read in the order `kind host_id namespace_id range_length`,
the example lines `u 0 9800 100` and `u 1000 9900 100` give the entries with
namespace ranges 9800-9899 and 9900-9999. Container uid 0 and container uid 1000
are covered by no entry, and container uid 9800 is mapped to host uid 0: not the
meaning the header gives these lines. -/
theorem id_map_line_spec_order_misreads_header :
    header_example_id_map_spec_order =
      [⟨.ID_TYPE_UID, 0, 9800, 100⟩, ⟨.ID_TYPE_UID, 1000, 9900, 100⟩] ∧
    (∀ m ∈ header_example_id_map_spec_order, m.covers .ID_TYPE_UID 0 = false) ∧
    (∀ m ∈ header_example_id_map_spec_order, m.covers .ID_TYPE_UID 1000 = false) ∧
    (∃ m ∈ header_example_id_map_spec_order,
      m.covers .ID_TYPE_UID 9800 = true ∧ m.host_of 9800 = 0) ∧
    ¬ (∀ n : Nat, (∃ m ∈ header_example_id_map_spec_order, m.covers .ID_TYPE_UID n = true) ↔
        (n < 100 ∨ (1000 ≤ n ∧ n < 1100))) := by
  refine ⟨by decide, by decide, by decide, by decide, ?_⟩
  intro h
  have h0 := (h 0).mpr (Or.inl (by decide))
  revert h0
  decide

/-- C6, amended: every line has the fields kind, namespace_id, host_id,
range_length in that order, a line `k a b n` being the entry with nsid = a,
hostid = b, range = n. Read this way, the example lines `u 0 9800 100` and
`u 1000 9900 100` give the container exactly the uids 0-99 and 1000-1099, with
container uid 0 mapped to host uid 9800 and container uid 1000 to host uid
9900. -/
theorem id_map_line_field_order :
    (∀ (k : Char) (a b n : Nat) (t : Lxc.idtype), idtype_of_kind k = some t →
      id_map_of_line ⟨k, a, b, n⟩ = some { idtype := t, nsid := a, hostid := b, range := n }) ∧
    header_example_id_map =
      [⟨.ID_TYPE_UID, 9800, 0, 100⟩, ⟨.ID_TYPE_UID, 9900, 1000, 100⟩] ∧
    (∀ n : Nat, (∃ m ∈ header_example_id_map, m.covers .ID_TYPE_UID n = true) ↔
        (n < 100 ∨ (1000 ≤ n ∧ n < 1100))) ∧
    (∃ m ∈ header_example_id_map, m.covers .ID_TYPE_UID 0 = true) ∧
    (∀ m ∈ header_example_id_map, m.covers .ID_TYPE_UID 0 = true → m.host_of 0 = 9800) ∧
    (∃ m ∈ header_example_id_map, m.covers .ID_TYPE_UID 1000 = true) ∧
    (∀ m ∈ header_example_id_map, m.covers .ID_TYPE_UID 1000 = true →
      m.host_of 1000 = 9900) := by
  have hmap : header_example_id_map =
      [⟨.ID_TYPE_UID, 9800, 0, 100⟩, ⟨.ID_TYPE_UID, 9900, 1000, 100⟩] := by decide
  refine ⟨?_, hmap, ?_, by decide, by decide, by decide, by decide⟩
  · intro k a b n t hk
    simp [id_map_of_line, hk]
  · intro n
    rw [hmap]
    simp only [List.mem_cons, List.mem_singleton, List.not_mem_nil, or_false,
      exists_eq_or_imp, exists_eq_left, id_map.covers, Bool.and_eq_true, decide_eq_true_eq]
    simp only [true_and]
    omega

/-! ### Automount resolution -/

section CgroupSettings

variable {α : Type} [LinearOrder α] (rank : String → α)

theorem insert_cgroup_setting_perm (x : lxc_cgroup) (l : List lxc_cgroup) :
    (insert_cgroup_setting rank x l).Perm (x :: l) := by
  induction l with
  | nil => exact List.Perm.refl _
  | cons y ys ih =>
    unfold insert_cgroup_setting
    split_ifs with h
    · exact List.Perm.refl _
    · exact (List.Perm.cons y ih).trans (List.Perm.swap x y ys)

theorem sort_cgroup_settings_cons (x : lxc_cgroup) (l : List lxc_cgroup) :
    sort_cgroup_settings rank (x :: l) =
      insert_cgroup_setting rank x (sort_cgroup_settings rank l) :=
  rfl

theorem sort_cgroup_settings_perm (l : List lxc_cgroup) :
    (sort_cgroup_settings rank l).Perm l := by
  induction l with
  | nil => exact List.Perm.refl _
  | cons x xs ih =>
    rw [sort_cgroup_settings_cons]
    exact (insert_cgroup_setting_perm rank x _).trans (List.Perm.cons x ih)

theorem insert_cgroup_setting_ordered (x : lxc_cgroup) (l : List lxc_cgroup)
    (hl : cgroup_settings_ordered rank l) :
    cgroup_settings_ordered rank (insert_cgroup_setting rank x l) := by
  induction l with
  | nil => simp [insert_cgroup_setting, cgroup_settings_ordered]
  | cons y ys ih =>
    unfold cgroup_settings_ordered at hl ih ⊢
    rw [List.pairwise_cons] at hl
    unfold insert_cgroup_setting
    split_ifs with h
    · rw [List.pairwise_cons]
      refine ⟨?_, List.pairwise_cons.mpr hl⟩
      intro z hz
      rcases List.mem_cons.mp hz with hz | hz
      · rw [hz]; exact h
      · exact le_trans h (hl.1 z hz)
    · rw [List.pairwise_cons]
      refine ⟨?_, ih hl.2⟩
      intro z hz
      have hz2 := (insert_cgroup_setting_perm rank x ys).subset hz
      rcases List.mem_cons.mp hz2 with hz3 | hz3
      · rw [hz3]; exact le_of_lt (not_le.mp h)
      · exact hl.1 z hz3

theorem sort_cgroup_settings_ordered (l : List lxc_cgroup) :
    cgroup_settings_ordered rank (sort_cgroup_settings rank l) := by
  induction l with
  | nil => simp [sort_cgroup_settings, cgroup_settings_ordered]
  | cons x xs ih =>
    rw [sort_cgroup_settings_cons]
    exact insert_cgroup_setting_ordered rank x _ ih

theorem sort_cgroup_settings_of_ordered (l : List lxc_cgroup)
    (hl : cgroup_settings_ordered rank l) : sort_cgroup_settings rank l = l := by
  induction l with
  | nil => rfl
  | cons x xs ih =>
    unfold cgroup_settings_ordered at hl ih
    rw [List.pairwise_cons] at hl
    rw [sort_cgroup_settings_cons, ih hl.2]
    cases xs with
    | nil => rfl
    | cons y ys =>
      unfold insert_cgroup_setting
      rw [if_pos (hl.1 y (List.mem_cons_self y ys))]

theorem settings_of_rank_insert (a : α) (x : lxc_cgroup) (l : List lxc_cgroup) :
    settings_of_rank rank a (insert_cgroup_setting rank x l) =
      settings_of_rank rank a (x :: l) := by
  induction l with
  | nil => rfl
  | cons y ys ih =>
    unfold insert_cgroup_setting
    split_ifs with h
    · rfl
    · unfold settings_of_rank at ih ⊢
      rw [List.filter_cons, ih]
      by_cases hx : rank x.subsystem = a
      · by_cases hy : rank y.subsystem = a
        · exact absurd (le_of_eq (hx.trans hy.symm)) h
        · simp [List.filter_cons, hx, hy]
      · by_cases hy : rank y.subsystem = a
        · simp [List.filter_cons, hx, hy]
        · simp [List.filter_cons, hx, hy]

theorem settings_of_rank_sort (a : α) (l : List lxc_cgroup) :
    settings_of_rank rank a (sort_cgroup_settings rank l) = settings_of_rank rank a l := by
  induction l with
  | nil => rfl
  | cons x xs ih =>
    rw [sort_cgroup_settings_cons, settings_of_rank_insert]
    unfold settings_of_rank at ih ⊢
    rw [List.filter_cons, List.filter_cons, ih]

end CgroupSettings

/-- C9: `sort_cgroup_settings` is idempotent and a stable permutation. For every
write order of the subsystems and every list `L` of settings,
`sort (sort L) = sort L`, `sort L` has the same multiset of entries as `L`, the
entries the order does not distinguish keep their relative order from `L`, and
`sort L` is in write order. -/
theorem sort_cgroup_settings_idempotent_stable {α : Type} [LinearOrder α]
    (rank : String → α) (L : List lxc_cgroup) :
    sort_cgroup_settings rank (sort_cgroup_settings rank L) = sort_cgroup_settings rank L ∧
    (sort_cgroup_settings rank L).Perm L ∧
    (∀ e : lxc_cgroup, (sort_cgroup_settings rank L).count e = L.count e) ∧
    (∀ a : α, settings_of_rank rank a (sort_cgroup_settings rank L) =
      settings_of_rank rank a L) ∧
    cgroup_settings_ordered rank (sort_cgroup_settings rank L) :=
  ⟨sort_cgroup_settings_of_ordered rank _ (sort_cgroup_settings_ordered rank L),
   sort_cgroup_settings_perm rank L,
   fun e => (sort_cgroup_settings_perm rank L).count_eq e,
   fun a => settings_of_rank_sort rank a L,
   sort_cgroup_settings_ordered rank L⟩

/-- C9 at a concrete input, with `memory.memsw.limit_in_bytes` written last: the
memsw limit given first moves behind the two other settings, which keep their
order. -/
theorem sort_cgroup_settings_idempotent_stable_witness :
    sort_cgroup_settings memsw_last
      [⟨"memory.memsw.limit_in_bytes", "2G"⟩, ⟨"cpu.shares", "512"⟩,
       ⟨"memory.limit_in_bytes", "1G"⟩] =
      [⟨"cpu.shares", "512"⟩, ⟨"memory.limit_in_bytes", "1G"⟩,
       ⟨"memory.memsw.limit_in_bytes", "2G"⟩] ∧
    sort_cgroup_settings memsw_last (sort_cgroup_settings memsw_last
      [⟨"memory.memsw.limit_in_bytes", "2G"⟩, ⟨"cpu.shares", "512"⟩,
       ⟨"memory.limit_in_bytes", "1G"⟩]) =
      sort_cgroup_settings memsw_last
        [⟨"memory.memsw.limit_in_bytes", "2G"⟩, ⟨"cpu.shares", "512"⟩,
         ⟨"memory.limit_in_bytes", "1G"⟩] :=
  ⟨by decide,
   (sort_cgroup_settings_idempotent_stable memsw_last
      [⟨"memory.memsw.limit_in_bytes", "2G"⟩, ⟨"cpu.shares", "512"⟩,
       ⟨"memory.limit_in_bytes", "1G"⟩]).1⟩

end Lxc
